import Mathlib

/-!
# MindForge — formal model of the LLM-response normalization pipeline

A shallow embedding, in Lean 4, of the parts of the MindForge repository that
its specification makes testable claims about:

* Python string primitives used pervasively by the code
  (`str.strip`, `str.lower`, truthiness, `str()` coercion);
* the JSON value model and an executable model of `json.loads`
  (strict and non-strict);
* `utils/text_cleaner.py` (markdown/comment cleanup, JSON repair,
  `parse_llm_json`);
* `services/gigachat_client.py` (`_parse_json_from_text`, `generate_json`,
  `_enhance_json_prompt`);
* `agents/quiz.py` (`_validate_question_structure`,
  `_validate_and_filter_questions`, `_validate_unique`);
* `agents/orchestrator.py` (`process_note_pipeline`, `submit_answer`,
  `_update_history`, `_find_question_by_id`).

Python dicts coming from JSON are modelled by the inductive type `JVal`;
question records are modelled by the structure `RawQ` whose fields are the
five keys read or written by the quiz validator (other keys are carried
opaquely in `rest`).
-/

namespace MindForge

/-! ## Python string primitives -/

/-- Python `str.isspace` / `str.strip` whitespace, restricted to the
characters that can actually appear in this code base (ASCII whitespace,
the C0 separator block, NEL, NBSP and the common Unicode spaces). -/
def pyIsSpace (c : Char) : Bool :=
  c = ' ' || c = '\t' || c = '\n' || c = '\r' ||
  c = (Char.ofNat 0x0b) || c = (Char.ofNat 0x0c) ||
  (0x1c ≤ c.toNat && c.toNat ≤ 0x1f) ||
  c = (Char.ofNat 0x85) || c = (Char.ofNat 0xa0) ||
  (0x2000 ≤ c.toNat && c.toNat ≤ 0x200a) ||
  c = (Char.ofNat 0x2028) || c = (Char.ofNat 0x2029) ||
  c = (Char.ofNat 0x202f) || c = (Char.ofNat 0x205f) ||
  c = (Char.ofNat 0x3000)

/-- `str.strip()` on a character list: drop whitespace from both ends. -/
def stripL (l : List Char) : List Char :=
  ((l.dropWhile pyIsSpace).reverse.dropWhile pyIsSpace).reverse

/-- Python `str.strip()`. -/
def pyStrip (s : String) : String :=
  (stripL s.toList).asString

/-- Python `str.lower()` on one character: ASCII `A`–`Z` and the Cyrillic
alphabet (`А`–`Я`, `Ё`) — the only alphabets this repository lowercases.
Other characters are left unchanged. -/
def pyLowerChar (c : Char) : Char :=
  if 0x41 ≤ c.toNat ∧ c.toNat ≤ 0x5a then Char.ofNat (c.toNat + 0x20)
  else if 0x410 ≤ c.toNat ∧ c.toNat ≤ 0x42f then Char.ofNat (c.toNat + 0x20)
  else if c.toNat = 0x401 then Char.ofNat 0x451
  else c

/-- Python `str.lower()`. -/
def pyLower (s : String) : String :=
  (s.toList.map pyLowerChar).asString

/-! ### Lemmas about `pyStrip` -/

theorem head?_dropWhile_false {p : Char → Bool} :
    ∀ {l : List Char} {c : Char}, (l.dropWhile p).head? = some c → p c = false := by
  intro l
  induction l with
  | nil => intro c hc; simp at hc
  | cons a t ih =>
      intro c hc
      rw [List.dropWhile_cons] at hc
      by_cases hp : p a
      · simp [hp] at hc
        exact ih hc
      · simp [hp] at hc
        simp [← hc]
        simpa using hp

theorem dropWhile_eq_self_of_head {p : Char → Bool} {l : List Char}
    (h : ∀ c, l.head? = some c → p c = false) :
    l.dropWhile p = l := by
  rcases l with _ | ⟨a, t⟩
  · rfl
  · rw [List.dropWhile_cons]
    simp [h a rfl]

theorem dropWhile_dropWhile_self (p : Char → Bool) (l : List Char) :
    (l.dropWhile p).dropWhile p = l.dropWhile p := by
  apply dropWhile_eq_self_of_head
  intro c hc
  exact head?_dropWhile_false hc

/-- The stripped list is `X.reverse` for
`X := dropWhile pyIsSpace (reverse (dropWhile pyIsSpace l))`;
as a nonempty prefix of `dropWhile pyIsSpace l` it has the same head. -/
theorem stripL_head_not_space {l : List Char} :
    ∀ c, (stripL l).head? = some c → pyIsSpace c = false := by
  intro c hc
  unfold stripL at hc
  set m := l.dropWhile pyIsSpace with hm
  set X := m.reverse.dropWhile pyIsSpace with hX
  have hsfx : X <:+ m.reverse := List.dropWhile_suffix pyIsSpace
  have hpre : X.reverse <+: m := by
    have := hsfx.reverse
    rwa [List.reverse_reverse] at this
  obtain ⟨t, ht⟩ := hpre
  have hmh : m.head? = some c := by
    rw [← ht]
    rcases hXr : X.reverse with _ | ⟨d, r⟩
    · rw [hXr] at hc; simp at hc
    · rw [hXr] at hc
      simp at hc
      simp [hc]
  rw [hm] at hmh
  exact head?_dropWhile_false hmh

theorem stripL_getLast_not_space {l : List Char} :
    ∀ c, (stripL l).getLast? = some c → pyIsSpace c = false := by
  intro c hc
  unfold stripL at hc
  rw [List.getLast?_reverse] at hc
  exact head?_dropWhile_false hc

/-- A list that neither starts nor ends with whitespace is unchanged by
stripping. -/
theorem stripL_eq_self {l : List Char}
    (h1 : ∀ c, l.head? = some c → pyIsSpace c = false)
    (h2 : ∀ c, l.getLast? = some c → pyIsSpace c = false) :
    stripL l = l := by
  unfold stripL
  have hd : l.dropWhile pyIsSpace = l := dropWhile_eq_self_of_head h1
  rw [hd]
  have hr : l.reverse.dropWhile pyIsSpace = l.reverse := by
    apply dropWhile_eq_self_of_head
    intro c hc
    rw [List.head?_reverse] at hc
    exact h2 c hc
  rw [hr, List.reverse_reverse]

theorem stripL_idem (l : List Char) : stripL (stripL l) = stripL l :=
  stripL_eq_self (fun c hc => stripL_head_not_space c hc)
    (fun c hc => stripL_getLast_not_space c hc)

theorem toList_asString (l : List Char) : l.asString.toList = l := rfl

theorem pyStrip_idem (s : String) : pyStrip (pyStrip s) = pyStrip s := by
  unfold pyStrip
  rw [toList_asString, stripL_idem]

/-! ## JSON values

`JVal` models the Python values produced by `json.loads` and passed around the
pipeline. JSON integers become `num`; non-integer numbers (Python floats) are
kept as their source lexeme in `fnum`, since no code in scope computes with
them. Objects are association lists in insertion order; the repository never
builds objects with duplicate keys, so Python's last-wins `dict` semantics and
this list representation agree on everything modelled here. -/

inductive JVal where
  | null
  | bool (b : Bool)
  | num (n : Int)
  | fnum (lexeme : String)
  | str (s : String)
  | arr (elems : List JVal)
  | obj (fields : List (String × JVal))

/-- Python truthiness (`bool(v)`) of a JSON value. -/
def pyTruthy : JVal → Bool
  | .null => false
  | .bool b => b
  | .num n => n ≠ 0
  | .fnum l => l ≠ "0" && l ≠ "0.0" && l ≠ "-0.0"
  | .str s => s ≠ ""
  | .arr xs => !xs.isEmpty
  | .obj fs => !fs.isEmpty

mutual
/-- Python `str(v)` of a JSON value. For nested containers this mirrors
`str` on `list`/`dict` (element `repr`s joined by `", "`); `repr` escaping of
quotes and backslashes inside strings is not reproduced, as nothing in scope
feeds such values to `str`. -/
def pyStr : JVal → String
  | .null => "None"
  | .bool true => "True"
  | .bool false => "False"
  | .num n => toString n
  | .fnum l => l
  | .str s => s
  | .arr xs => "[" ++ String.intercalate ", " (pyReprList xs) ++ "]"
  | .obj fs => "\x7b" ++ String.intercalate ", " (pyReprFields fs) ++ "\x7d"

/-- Python `repr(v)` (as used when a container is converted by `str`). -/
def pyRepr : JVal → String
  | .null => "None"
  | .bool true => "True"
  | .bool false => "False"
  | .num n => toString n
  | .fnum l => l
  | .str s => "\x27" ++ s ++ "\x27"
  | .arr xs => "[" ++ String.intercalate ", " (pyReprList xs) ++ "]"
  | .obj fs => "\x7b" ++ String.intercalate ", " (pyReprFields fs) ++ "\x7d"

def pyReprList : List JVal → List String
  | [] => []
  | v :: vs => pyRepr v :: pyReprList vs

def pyReprFields : List (String × JVal) → List String
  | [] => []
  | (k, v) :: fs => ("\x27" ++ k ++ "\x27: " ++ pyRepr v) :: pyReprFields fs
end

/-- Python `dict.get(key)`: first binding wins in this model (objects built by
the code never repeat keys). -/
def jget (v : JVal) (key : String) : Option JVal :=
  match v with
  | .obj fs => (fs.find? (fun kv => kv.1 = key)).map (·.2)
  | _ => none

/-- Python `dict.get(key, default)`. -/
def jgetD (v : JVal) (key : String) (dflt : JVal) : JVal :=
  (jget v key).getD dflt

/-! ## `json.loads`

An executable model of Python's `json.loads(s)` / `json.loads(s, strict=False)`.
A result of `none` models a raised `json.JSONDecodeError`. The `strict` flag
has exactly python's meaning: when false, unescaped control characters are
allowed inside string literals. Non-integer numbers are kept as their lexeme
(`JVal.fnum`); `NaN`/`Infinity`/`-Infinity` are accepted as in CPython.
Recursion is fueled; the fuel supplied by `pyJsonLoads` always suffices
because every recursive call follows the consumption of at least one input
character. -/

/-- JSON-grammar whitespace (this is narrower than Python's `str.strip`). -/
def jsonWs (c : Char) : Bool :=
  c = ' ' || c = '\t' || c = '\n' || c = '\r'

def skipJsonWs (cs : List Char) : List Char := cs.dropWhile jsonWs

def hexVal? (c : Char) : Option Nat :=
  if '0' ≤ c ∧ c ≤ '9' then some (c.toNat - 48)
  else if 'a' ≤ c ∧ c ≤ 'f' then some (c.toNat - 87)
  else if 'A' ≤ c ∧ c ≤ 'F' then some (c.toNat - 55)
  else none

def digitsToNat (ds : List Char) : Nat :=
  ds.foldl (fun acc c => acc * 10 + (c.toNat - 48)) 0

/-- Parse a JSON number starting at the current position (first char is the
sign or first digit). Mirrors CPython's `NUMBER_RE`:
`(-?(?:0|[1-9]\d*))(\.\d+)?([eE][-+]?\d+)?` — note that a leading `0` ends
the integer part, so `0123` parses as `0` with `123` left over. -/
def parseJNum (cs : List Char) : Option (JVal × List Char) :=
  let (neg, cs1) := match cs with
    | '-' :: r => (true, r)
    | _ => (false, cs)
  match cs1 with
  | [] => none
  | c :: _ =>
    if !c.isDigit then none
    else
      let (ip, cs2) :=
        if c = '0' then ([c], cs1.tail)
        else (cs1.takeWhile Char.isDigit, cs1.dropWhile Char.isDigit)
      let (fp, cs3) :=
        match cs2 with
        | '.' :: r =>
          match r with
          | d :: _ =>
            if d.isDigit then (['.'] ++ r.takeWhile Char.isDigit, r.dropWhile Char.isDigit)
            else ([], cs2)
          | [] => ([], cs2)
        | _ => ([], cs2)
      let (ep, cs4) :=
        match cs3 with
        | e :: r =>
          if e = 'e' ∨ e = 'E' then
            let (sgn, r2) := match r with
              | '+' :: r2 => (['+'], r2)
              | '-' :: r2 => (['-'], r2)
              | _ => (([] : List Char), r)
            match r2 with
            | d :: _ =>
              if d.isDigit then ([e] ++ sgn ++ r2.takeWhile Char.isDigit, r2.dropWhile Char.isDigit)
              else ([], cs3)
            | [] => ([], cs3)
          else ([], cs3)
        | [] => ([], cs3)
      if fp.isEmpty ∧ ep.isEmpty then
        let n : Int := Int.ofNat (digitsToNat ip)
        some (.num (if neg then -n else n), cs2)
      else
        let lex := (if neg then ['-'] else []) ++ ip ++ fp ++ ep
        some (.fnum lex.asString, cs4)

mutual

/-- Parse one JSON value (leading whitespace allowed), returning the value and
the unconsumed remainder. -/
def parseJVal (strict : Bool) : Nat → List Char → Option (JVal × List Char)
  | 0, _ => none
  | fuel + 1, cs =>
    match skipJsonWs cs with
    | [] => none
    | c :: rest =>
      if c = '{' then
        match skipJsonWs rest with
        | '}' :: r => some (.obj [], r)
        | _ => parseJPairs strict fuel rest []
      else if c = '[' then
        match skipJsonWs rest with
        | ']' :: r => some (.arr [], r)
        | _ => parseJElems strict fuel rest []
      else if c = '"' then
        match parseJStr strict fuel rest [] with
        | some (s, r) => some (.str s, r)
        | none => none
      else if c = 't' then
        match rest with
        | 'r' :: 'u' :: 'e' :: r => some (.bool true, r)
        | _ => none
      else if c = 'f' then
        match rest with
        | 'a' :: 'l' :: 's' :: 'e' :: r => some (.bool false, r)
        | _ => none
      else if c = 'n' then
        match rest with
        | 'u' :: 'l' :: 'l' :: r => some (.null, r)
        | _ => none
      else if c = 'N' then
        match rest with
        | 'a' :: 'N' :: r => some (.fnum "NaN", r)
        | _ => none
      else if c = 'I' then
        match rest with
        | 'n' :: 'f' :: 'i' :: 'n' :: 'i' :: 't' :: 'y' :: r => some (.fnum "Infinity", r)
        | _ => none
      else if c = '-' then
        match rest with
        | 'I' :: 'n' :: 'f' :: 'i' :: 'n' :: 'i' :: 't' :: 'y' :: r =>
          some (.fnum "-Infinity", r)
        | _ => parseJNum (c :: rest)
      else parseJNum (c :: rest)

/-- Parse the members of an object, positioned after `{` (or after a `,`),
with at least one `"key": value` pair expected. -/
def parseJPairs (strict : Bool) :
    Nat → List Char → List (String × JVal) → Option (JVal × List Char)
  | 0, _, _ => none
  | fuel + 1, cs, acc =>
    match skipJsonWs cs with
    | '"' :: r =>
      match parseJStr strict fuel r [] with
      | none => none
      | some (k, r2) =>
        match skipJsonWs r2 with
        | ':' :: r3 =>
          match parseJVal strict fuel r3 with
          | none => none
          | some (v, r4) =>
            match skipJsonWs r4 with
            | ',' :: r5 => parseJPairs strict fuel r5 (acc ++ [(k, v)])
            | '}' :: r5 => some (.obj (acc ++ [(k, v)]), r5)
            | _ => none
        | _ => none
    | _ => none

/-- Parse the elements of an array, positioned after `[` (or after a `,`),
with at least one value expected. -/
def parseJElems (strict : Bool) :
    Nat → List Char → List JVal → Option (JVal × List Char)
  | 0, _, _ => none
  | fuel + 1, cs, acc =>
    match parseJVal strict fuel cs with
    | none => none
    | some (v, r) =>
      match skipJsonWs r with
      | ',' :: r2 => parseJElems strict fuel r2 (acc ++ [v])
      | ']' :: r2 => some (.arr (acc ++ [v]), r2)
      | _ => none

/-- Parse a string body, positioned just after the opening quote. `acc` holds
the characters read so far, in reverse. Lone surrogate `\uXXXX` escapes (which
Python keeps as surrogate code points) are replaced by U+FFFD, since Lean's
`Char` carries only scalar values; nothing in scope produces them. -/
def parseJStr (strict : Bool) :
    Nat → List Char → List Char → Option (String × List Char)
  | 0, _, _ => none
  | fuel + 1, cs, acc =>
    match cs with
    | [] => none
    | '"' :: r => some (acc.reverse.asString, r)
    | '\\' :: e :: r =>
      if e = '"' then parseJStr strict fuel r ('"' :: acc)
      else if e = '\\' then parseJStr strict fuel r ('\\' :: acc)
      else if e = '/' then parseJStr strict fuel r ('/' :: acc)
      else if e = 'b' then parseJStr strict fuel r (Char.ofNat 8 :: acc)
      else if e = 'f' then parseJStr strict fuel r (Char.ofNat 12 :: acc)
      else if e = 'n' then parseJStr strict fuel r ('\n' :: acc)
      else if e = 'r' then parseJStr strict fuel r ('\r' :: acc)
      else if e = 't' then parseJStr strict fuel r ('\t' :: acc)
      else if e = 'u' then
        match r with
        | a :: b :: c :: d :: r2 =>
          match hexVal? a, hexVal? b, hexVal? c, hexVal? d with
          | some ha, some hb, some hc, some hd =>
            let n := ((ha * 16 + hb) * 16 + hc) * 16 + hd
            if 0xd800 ≤ n ∧ n ≤ 0xdbff then
              match r2 with
              | '\\' :: 'u' :: a2 :: b2 :: c2 :: d2 :: r3 =>
                match hexVal? a2, hexVal? b2, hexVal? c2, hexVal? d2 with
                | some h2a, some h2b, some h2c, some h2d =>
                  let n2 := ((h2a * 16 + h2b) * 16 + h2c) * 16 + h2d
                  if 0xdc00 ≤ n2 ∧ n2 ≤ 0xdfff then
                    let cp := 0x10000 + (n - 0xd800) * 0x400 + (n2 - 0xdc00)
                    parseJStr strict fuel r3 (Char.ofNat cp :: acc)
                  else parseJStr strict fuel r2 (Char.ofNat 0xfffd :: acc)
                | _, _, _, _ => parseJStr strict fuel r2 (Char.ofNat 0xfffd :: acc)
              | _ => parseJStr strict fuel r2 (Char.ofNat 0xfffd :: acc)
            else if 0xdc00 ≤ n ∧ n ≤ 0xdfff then
              parseJStr strict fuel r2 (Char.ofNat 0xfffd :: acc)
            else parseJStr strict fuel r2 (Char.ofNat n :: acc)
          | _, _, _, _ => none
        | _ => none
      else none
    | c :: r =>
      if strict ∧ c.toNat < 0x20 then none
      else parseJStr strict fuel r (c :: acc)

end

/-- `json.loads(s)` (when `strict := true`) or `json.loads(s, strict=False)`.
`none` models a raised `json.JSONDecodeError`; trailing data other than JSON
whitespace is an error ("Extra data"), as in CPython. -/
def pyJsonLoads (strict : Bool) (s : String) : Option JVal :=
  let cs := s.toList
  match parseJVal strict (cs.length + 2) cs with
  | some (v, rest) => if (skipJsonWs rest).isEmpty then some v else none
  | none => none

/-! ## Shared regex-substitution scanners

The repository's JSON repair uses a handful of `re.sub`/`re.search` calls;
each is modelled by a direct character-list scanner with the same match
semantics (leftmost match, continue after the replaced span). `reSpace`
stands for the regex class `\s`, which on the characters in scope coincides
with Python's `str`-whitespace. Fueled recursion: the fuel is always
initialized to more than the input length, and every step consumes input. -/

def reSpace (c : Char) : Bool := pyIsSpace c

def startsWithL : List Char → List Char → Bool
  | [], _ => true
  | _ :: _, [] => false
  | p :: ps, c :: cs => p = c && startsWithL ps cs

def hasSubstr (pat : List Char) : List Char → Bool
  | [] => startsWithL pat []
  | c :: cs => startsWithL pat (c :: cs) || hasSubstr pat cs

/-- `re.sub(r'/\*.*?\*/', '', text, flags=re.DOTALL)`: remove each
non-greedy block comment. -/
def stripBlockComments : Nat → List Char → List Char
  | 0, cs => cs
  | _ + 1, [] => []
  | fuel + 1, '/' :: '*' :: r =>
    match dropToBlockEnd r with
    | some rest => stripBlockComments fuel rest
    | none => '/' :: '*' :: r
  | fuel + 1, c :: r => c :: stripBlockComments fuel r
where
  /-- Skip to just after the first `*/`; `none` if there is none
  (then no block comment can match anywhere later either). -/
  dropToBlockEnd : List Char → Option (List Char)
    | '*' :: '/' :: rest => some rest
    | _ :: rest => dropToBlockEnd rest
    | [] => none

/-- `re.sub(r'//.*?$', '', text, flags=re.MULTILINE)` (text_cleaner's
line-comment removal): erase from any `//` through the end of its line. -/
def stripLineCommentsAnywhere : Nat → List Char → List Char
  | 0, cs => cs
  | _ + 1, [] => []
  | fuel + 1, '/' :: '/' :: r =>
    stripLineCommentsAnywhere fuel (r.dropWhile (fun c => c ≠ '\n'))
  | fuel + 1, c :: r => c :: stripLineCommentsAnywhere fuel r

/-- `re.sub(r'^\s*//.*$', '', text, flags=re.MULTILINE)` (gigachat client's
line-comment removal): only a `//` preceded by nothing but whitespace from
some line start is erased, together with that whitespace run and the rest of
the line. `atStart` records whether the current position is a line start. -/
def stripLineCommentsAnchored : Nat → Bool → List Char → List Char
  | 0, _, cs => cs
  | _ + 1, _, [] => []
  | fuel + 1, true, cs =>
    let rest := cs.dropWhile reSpace
    if startsWithL ['/', '/'] rest then
      stripLineCommentsAnchored fuel false (rest.dropWhile (fun c => c ≠ '\n'))
    else
      match cs with
      | c :: r =>
        if c = '\n' then c :: stripLineCommentsAnchored fuel true r
        else c :: stripLineCommentsAnchored fuel false r
      | [] => []
  | fuel + 1, false, c :: r =>
    if c = '\n' then c :: stripLineCommentsAnchored fuel true r
    else c :: stripLineCommentsAnchored fuel false r

def lastIdxOf (c : Char) (l : List Char) : Option Nat :=
  match (l.reverse.findIdx? (fun x => x = c)) with
  | some k => some (l.length - 1 - k)
  | none => none

/-- Python `str.replace(pat, rep)`: replace all non-overlapping occurrences,
left to right (the patterns used in this code base are never empty). -/
def pyReplaceL (pat rep : List Char) : Nat → List Char → List Char
  | 0, cs => cs
  | _ + 1, [] => []
  | fuel + 1, c :: r =>
    if pat ≠ [] ∧ startsWithL pat (c :: r) then
      rep ++ pyReplaceL pat rep fuel ((c :: r).drop pat.length)
    else c :: pyReplaceL pat rep fuel r

def pyReplace (s pat rep : String) : String :=
  (pyReplaceL pat.toList rep.toList (s.length + 1) s.toList).asString

/-! ## `utils/text_cleaner.py` -/

/-- Exceptions escaping the cleanup layer: all JSON parse failures are
`json.JSONDecodeError`; `indexError` models `match.group(1)` raising on the
group-less markdown-fence pattern (the source literally contains the pattern
`r'``````'` — six backticks, no capture group). -/
inductive PErr where
  | jsonDecodeError
  | indexError
deriving DecidableEq, Repr

/-- `extract_json_from_markdown(text)`. The source's fence pattern is the
literal `r'``````'` with no capture group, so it matches only a run of six
backticks, and a match raises `IndexError` at `match.group(1)`. -/
def extract_json_from_markdown (text : String) : Except PErr String :=
  let text := pyStrip text
  if hasSubstr "``````".toList text.toList then .error .indexError
  else .ok text

/-- `remove_comments(text)`: block comments first, then `//.*?$` lines. -/
def remove_comments (text : String) : String :=
  let l1 := stripBlockComments (text.length + 1) text.toList
  (stripLineCommentsAnywhere (l1.length + 1) l1).asString

/-- `extract_json_object(text)`: first try `\{[\s\S]*\}` (first `{` to last
`}`), then `\[[\s\S]*\]`; empty string when neither matches. -/
def extract_json_object (text : String) : String :=
  let cs := text.toList
  match cs.findIdx? (fun c => c = '{'), lastIdxOf '}' cs with
  | some i, some j =>
    if i < j then ((cs.drop i).take (j - i + 1)).asString
    else extractArr cs
  | _, _ => extractArr cs
where
  extractArr (cs : List Char) : String :=
    match cs.findIdx? (fun c => c = '['), lastIdxOf ']' cs with
    | some i, some j => if i < j then ((cs.drop i).take (j - i + 1)).asString else ""
    | _, _ => ""

/-- `clean_json_text(text)`: markdown extraction, comment removal, strip. -/
def clean_json_text (text : String) : Except PErr String := do
  let t1 ← extract_json_from_markdown text
  let t2 := remove_comments t1
  return pyStrip t2

/-- `re.sub(r',\s*X', 'X', text)` for a closing bracket `X`. -/
def subTrailingComma (close : Char) : Nat → List Char → List Char
  | 0, cs => cs
  | _ + 1, [] => []
  | fuel + 1, c :: r =>
    if c = ',' then
      match r.dropWhile reSpace with
      | d :: rest =>
        if d = close then close :: subTrailingComma close fuel rest
        else c :: subTrailingComma close fuel r
      | [] => c :: subTrailingComma close fuel r
    else c :: subTrailingComma close fuel r

/-- `re.sub(r"'([^']*)':", r'"\1":', text)`: single-quoted object keys. -/
def subQuotedKeys : Nat → List Char → List Char
  | 0, cs => cs
  | _ + 1, [] => []
  | fuel + 1, c :: r =>
    if c = '\'' then
      let content := r.takeWhile (fun x => x ≠ '\'')
      match r.dropWhile (fun x => x ≠ '\'') with
      | '\'' :: ':' :: rest =>
        '"' :: content ++ '"' :: ':' :: subQuotedKeys fuel rest
      | _ => c :: subQuotedKeys fuel r
    else c :: subQuotedKeys fuel r

/-- `re.sub(r":\s*'([^']*)'", r': "\1"', text)`: single-quoted values
(note the replacement normalizes to exactly one space after the colon). -/
def subQuotedValues : Nat → List Char → List Char
  | 0, cs => cs
  | _ + 1, [] => []
  | fuel + 1, c :: r =>
    if c = ':' then
      match r.dropWhile reSpace with
      | '\'' :: r2 =>
        let content := r2.takeWhile (fun x => x ≠ '\'')
        match r2.dropWhile (fun x => x ≠ '\'') with
        | '\'' :: rest =>
          ':' :: ' ' :: '"' :: content ++ '"' :: subQuotedValues fuel rest
        | _ => c :: subQuotedValues fuel r
      | _ => c :: subQuotedValues fuel r
    else c :: subQuotedValues fuel r

/-- `fix_common_json_errors(text)`. -/
def fix_common_json_errors (text : String) : String :=
  if text = "" then text
  else
    let l0 := text.toList
    let l1 := subTrailingComma ']' (l0.length + 1) l0
    let l2 := subTrailingComma '}' (l1.length + 1) l1
    let l3 := subQuotedKeys (l2.length + 1) l2
    let l4 := subQuotedValues (l3.length + 1) l3
    l4.asString

/-- `parse_llm_json(text, strict)`: the four-strategy repair ladder of
`utils/text_cleaner.py`. `.ok none` models returning Python `None`. -/
def parse_llm_json (text : String) (strict : Bool) : Except PErr (Option JVal) :=
  if text = "" ∨ pyStrip text = "" then .ok none
  else
    match pyJsonLoads true text with
    | some v => .ok (some v)
    | none =>
      if strict then .ok none
      else do
        let cleaned ← clean_json_text text
        match pyJsonLoads true cleaned with
        | some v => return (some v)
        | none =>
          let extracted := extract_json_object cleaned
          let step3 := if extracted = "" then none else pyJsonLoads true extracted
          match step3 with
          | some v => return (some v)
          | none =>
            let base := if extracted ≠ "" then extracted else cleaned
            let fixed := fix_common_json_errors base
            if fixed ≠ base then
              match pyJsonLoads true fixed with
              | some v => return (some v)
              | none => return none
            else return none

/-! ## `services/gigachat_client.py` -/

/-- The span-extraction of `_parse_json_from_text` attempt 3:
`re.search(r'(\{.*\}|\[.*\])', cleaned, re.DOTALL)` — at each position in
turn, a `{` with a later `}` matches greedily to the last `}`, else a `[`
with a later `]` matches greedily to the last `]`. -/
def extractSpanGiga : Nat → List Char → Option String
  | 0, _ => none
  | _ + 1, [] => none
  | fuel + 1, x :: r =>
    if x = '{' then
      match lastIdxOf '}' r with
      | some j => some ((x :: r.take (j + 1)).asString)
      | none => extractSpanGiga fuel r
    else if x = '[' then
      match lastIdxOf ']' r with
      | some j => some ((x :: r.take (j + 1)).asString)
      | none => extractSpanGiga fuel r
    else extractSpanGiga fuel r

/-- Attempt 4 of `_parse_json_from_text`: sequential literal replacement
`None→null`, `True→true`, `False→false`, `'→"` on the cleaned text, then a
lenient parse; on failure the last `JSONDecodeError` is re-raised. -/
def gigaFixAndParse (cleaned : String) : Except PErr JVal :=
  let fixed := pyReplace (pyReplace (pyReplace (pyReplace cleaned
      "None" "null") "True" "true") "False" "false") "\x27" "\""
  match pyJsonLoads false fixed with
  | some v => .ok v
  | none => .error .jsonDecodeError

/-- The unconditional cleanup of `_parse_json_from_text` minus the fence
check: anchored `//` lines, `/* */` blocks, BOM removal, NBSP → space, on the
stripped text. -/
def gigaCleanup (text : String) : String :=
  let cleaned0 := pyStrip text
  let l1 := stripLineCommentsAnchored (cleaned0.length + 1) true cleaned0.toList
  let l2 := stripBlockComments (l1.length + 1) l1
  ((l2.filter (fun c => c ≠ Char.ofNat 0xfeff)).map
    (fun c => if c = Char.ofNat 0xa0 then ' ' else c)).asString

/-- `GigaChatClient._parse_json_from_text(text)`: unconditional cleanup
(strip; the broken six-backtick fence pattern, whose match raises
`IndexError`; then `gigaCleanup`), then the attempt ladder: strict parse,
lenient parse, span extraction with lenient parse, literal replacement with
lenient parse. -/
def parse_json_from_text (text : String) : Except PErr JVal :=
  if text = "" then .error .jsonDecodeError
  else
    if hasSubstr "``````".toList (pyStrip text).toList then .error .indexError
    else
      let cleaned := gigaCleanup text
      match pyJsonLoads true cleaned with
      | some v => .ok v
      | none =>
        match pyJsonLoads false cleaned with
        | some v => .ok v
        | none =>
          match extractSpanGiga (cleaned.length + 1) cleaned.toList with
          | some potential =>
            match pyJsonLoads false potential with
            | some v => .ok v
            | none => gigaFixAndParse cleaned
          | none => gigaFixAndParse cleaned

/-- `GigaChatClient._enhance_json_prompt(original_prompt)`. -/
def enhance_json_prompt (originalPrompt : String) : String :=
  originalPrompt ++
    "\n\nКРИТИЧЕСКИ ВАЖНО: Верни ТОЛЬКО валидный JSON без комментариев, " ++
    "без дополнительного текста, без markdown разметки. " ++
    "Проверь все запятые и кавычки."

/-- Outcomes of `generate_json`. -/
inductive GJErr where
  | valueErrorEmptyPrompt  -- `ValueError("Prompt cannot be empty")`
  | parseFailed            -- `ValueError("Failed to parse JSON after … attempts …")`
  | reraised               -- a non-`JSONDecodeError` exception re-raised as-is
deriving DecidableEq, Repr

/-- The retry loop of `generate_json`. The LLM is an oracle
`llm : Nat → String → String` mapping the 1-based attempt index and the
current prompt to the raw response (responses may differ between attempts).
Returns the outcome together with the list of prompts actually sent.
The countdown `k` is the number of attempts still available. -/
def generate_json_loop (llm : Nat → String → String) (retryAttempts : Nat) :
    Nat → String → Except GJErr JVal × List String
  | 0, _ => (.error .parseFailed, [])
  | k + 1, prompt =>
    let attempt := retryAttempts - k
    let raw := llm attempt prompt
    match parse_json_from_text raw with
    | .ok v => (.ok v, [prompt])
    | .error .indexError => (.error .reraised, [prompt])
    | .error .jsonDecodeError =>
      if k = 0 then (.error .parseFailed, [prompt])
      else
        let res := generate_json_loop llm retryAttempts k (enhance_json_prompt prompt)
        (res.1, prompt :: res.2)

/-- `GigaChatClient.generate_json(prompt, retry_attempts)`; the source's
default for `retry_attempts` is `defaultRetryAttempts = 3`. -/
def generate_json (llm : Nat → String → String) (prompt : String)
    (retryAttempts : Nat) : Except GJErr JVal × List String :=
  if prompt = "" ∨ pyStrip prompt = "" then (.error .valueErrorEmptyPrompt, [])
  else generate_json_loop llm retryAttempts retryAttempts prompt

/-- The source default `retry_attempts: int = 3`. -/
def defaultRetryAttempts : Nat := 3

/-! ## `agents/quiz.py` — structural validation

A raw question record is a dict from the LLM; `RawQ` carries the five keys
the validator reads or writes (a key mapped to Python `None` is
`some JVal.null`, a missing key is `none`) plus the untouched remaining
key/value pairs in `rest`. `_validate_question_structure` mutates its record
in place and returns a bool; here it returns `some` of the normalized record
on success and `none` on rejection. -/

structure RawQ where
  question : Option JVal
  qtype : Option JVal
  related_concept : Option JVal
  options : Option JVal
  correct_answer : Option JVal
  rest : List (String × JVal)

def mcSynonyms : List String :=
  ["single_choice", "multi_choice", "choice", "multiple_choice", "multiplechoice"]

def tfSynonyms : List String :=
  ["boolean", "bool", "yes_no", "true_false", "true-false", "truefalse", "tf"]

def trueSynonyms : List String := ["true", "1", "yes", "верно", "да", "истина", "правда"]

def falseSynonyms : List String := ["false", "0", "no", "неверно", "нет", "ложь"]

/-- Step 1 of `_validate_question_structure`: reject a missing/falsy/blank
question text, strip it, truncate to 297 chars + `"..."` if over 300. -/
def normQuestionText (v : Option JVal) : Option String :=
  match v with
  | none => none
  | some v =>
    if !pyTruthy v then none
    else
      let s := pyStrip (pyStr v)
      if s = "" then none
      else some (if s.length > 300 then (s.toList.take 297).asString ++ "..." else s)

/-- Step 2: `str(q.get("type", "")).lower().strip()`. -/
def rawTypeOf (t : Option JVal) : String :=
  pyStrip (pyLower (pyStr (t.getD (.str ""))))

/-- Step 3: default a missing/falsy/blank `related_concept` to `"General"`,
otherwise strip it. -/
def normRelated (r : Option JVal) : String :=
  match r with
  | none => "General"
  | some v =>
    if !pyTruthy v then "General"
    else
      let s := pyStrip (pyStr v)
      if s = "" then "General" else s

def isNullJ : JVal → Bool
  | .null => true
  | _ => false

/-- The options list comprehension:
`[str(opt).strip() for opt in options if opt is not None and str(opt).strip()]`. -/
def cleanOptions (opts : List JVal) : List String :=
  (opts.filter (fun o => !isNullJ o && pyStrip (pyStr o) ≠ "")).map
    (fun o => pyStrip (pyStr o))

/-- Case-insensitive keep-first deduplication (the `seen_lower` /
`unique_options` loop). -/
def dedupCIAux (seen : List String) : List String → List String
  | [] => []
  | o :: rest =>
    if seen.contains (pyLower o) then dedupCIAux seen rest
    else o :: dedupCIAux (pyLower o :: seen) rest

def dedupCI (l : List String) : List String := dedupCIAux [] l

/-- Python `list.index(x)` (first index; the source checks membership before
calling it, so the `none` case never raises there). -/
def pyIndexOf (x : String) : List String → Option Nat
  | [] => none
  | a :: l => if a = x then some 0 else (pyIndexOf x l).map (· + 1)

/-- `q.get("options", [])` followed by the `isinstance(options, list)` check:
`none` = rejected, `some xs` = the list to clean. -/
def getOptionsList (o : Option JVal) : Option (List JVal) :=
  match o with
  | none => some []
  | some (.arr xs) => some xs
  | some _ => none

/-- `"correct_answer" not in q or q["correct_answer"] is None` — `none` when
that test rejects, otherwise the value. -/
def getAnswer (o : Option JVal) : Option JVal :=
  match o with
  | none => none
  | some .null => none
  | some v => some v

/-- Step 4: the `multiple_choice` branch. -/
def validateMC (q : RawQ) (questionText related : String) : Option RawQ :=
  match getOptionsList q.options with
  | none => none
  | some opts0 =>
    match getAnswer q.correct_answer with
    | none => none
    | some cv =>
      let opts1 := cleanOptions opts0
      if opts1.length < 2 then none
      else
        let opts := dedupCI opts1
        if opts.length < 2 then none
        else
          let ca := pyStrip (pyStr cv)
          if ca = "" then none
          else
            let answerLower := pyLower ca
            let optionsLower := opts.map pyLower
            match pyIndexOf answerLower optionsLower with
            | none => none     -- `answer_lower not in options_lower`
            | some i =>
              some ⟨some (.str questionText), some (.str "multiple_choice"),
                    some (.str related), some (.arr (opts.map JVal.str)),
                    some (.str ((opts[i]?).getD "")), q.rest⟩

/-- Step 5: the `true_false` branch. -/
def validateTF (q : RawQ) (questionText related : String) : Option RawQ :=
  match getAnswer q.correct_answer with
  | none => none
  | some cv =>
    let ansStr := pyStrip (pyLower (pyStr cv))
    if trueSynonyms.contains ansStr then
      some ⟨some (.str questionText), some (.str "true_false"),
            some (.str related), some (.arr [JVal.str "True", JVal.str "False"]),
            some (.str "True"), q.rest⟩
    else if falseSynonyms.contains ansStr then
      some ⟨some (.str questionText), some (.str "true_false"),
            some (.str related), some (.arr [JVal.str "True", JVal.str "False"]),
            some (.str "False"), q.rest⟩
    else none

/-- `QuizAgent._validate_question_structure(q)`. -/
def validate_question_structure (q : RawQ) : Option RawQ :=
  match normQuestionText q.question with
  | none => none
  | some qt =>
    let rawType := rawTypeOf q.qtype
    if mcSynonyms.contains rawType then
      validateMC q qt (normRelated q.related_concept)
    else if tfSynonyms.contains rawType then
      validateTF q qt (normRelated q.related_concept)
    else none

/-- `QuizAgent._validate_and_filter_questions(raw_questions)` on the record
level (the source first returns `[]` for a non-list argument and skips
non-dict elements; records are `RawQ` here). -/
def validate_and_filter_questions (raw : List RawQ) : List RawQ :=
  raw.filterMap validate_question_structure

/-- `q.get("question", "")` — the records handled here always carry a string
(Python would raise `AttributeError` on `.strip()` of a non-string). -/
def questionTextOf (q : RawQ) : String :=
  pyStr ((q.question).getD (.str ""))

/-- `QuizAgent._validate_unique(questions, history)`. The `history` argument
is accepted but never read by the source — only duplicates within the current
batch (case-insensitive stripped text) and blank texts are removed. -/
def validate_unique (questions : List RawQ) (history : List String) : List RawQ :=
  goUnique [] questions
where
  goUnique (seenInBatch : List String) : List RawQ → List RawQ
    | [] => []
    | q :: rest =>
      let text := pyStrip (questionTextOf q)
      if text = "" then goUnique seenInBatch rest
      else
        let textLower := pyLower text
        if seenInBatch.contains textLower then goUnique seenInBatch rest
        else q :: goUnique (textLower :: seenInBatch) rest

/-! ### Characterization of the validator's output -/

/-- A string as the validator leaves it: non-empty and strip-invariant. -/
def NormStr (s : String) : Prop := s ≠ "" ∧ pyStrip s = s

/-- Shape of a record surviving the `multiple_choice` branch. -/
def MCOut (q' : RawQ) : Prop :=
  ∃ (qt rel : String) (opts : List String) (i : Nat) (c : String),
    q'.question = some (.str qt) ∧ NormStr qt ∧ qt.length ≤ 300 ∧
    q'.qtype = some (.str "multiple_choice") ∧
    q'.related_concept = some (.str rel) ∧ NormStr rel ∧
    q'.options = some (.arr (opts.map JVal.str)) ∧
    (∀ o ∈ opts, NormStr o) ∧ 2 ≤ opts.length ∧
    (opts.map pyLower).Nodup ∧
    opts[i]? = some c ∧ q'.correct_answer = some (.str c)

/-- Shape of a record surviving the `true_false` branch. -/
def TFOut (q' : RawQ) : Prop :=
  ∃ qt rel,
    q'.question = some (.str qt) ∧ NormStr qt ∧ qt.length ≤ 300 ∧
    q'.qtype = some (.str "true_false") ∧
    q'.related_concept = some (.str rel) ∧ NormStr rel ∧
    q'.options = some (.arr [JVal.str "True", JVal.str "False"]) ∧
    (q'.correct_answer = some (.str "True") ∨ q'.correct_answer = some (.str "False"))

theorem length_asString (l : List Char) : l.asString.length = l.length := rfl

theorem pyStrip_toList (s : String) : (pyStrip s).toList = stripL s.toList := rfl

/-- `pyStrip` of a strip-image is itself. -/
theorem NormStr_of_strip {s : String} (h : pyStrip s ≠ "") : NormStr (pyStrip s) :=
  ⟨h, pyStrip_idem s⟩

/-- The truncated question text `s[:297] + "..."` of a strip-image `s` with
more than 300 characters is itself normalized, of length exactly 300. -/
theorem trunc_spec {X : List Char} (hX : ∀ c, X.head? = some c → pyIsSpace c = false)
    (hlen : 300 < X.length) :
    NormStr ((X.take 297).asString ++ "...") ∧
    ((X.take 297).asString ++ "...").length = 300 := by
  have hA : (X.take 297).asString ++ "..." = (X.take 297 ++ ['.', '.', '.']).asString := rfl
  have hlen297 : (X.take 297).length = 297 := by
    rw [List.length_take]; omega
  have hne : X.take 297 ≠ [] := by
    intro h0; rw [h0] at hlen297; simp at hlen297
  have hlen' : ((X.take 297).asString ++ "...").length = 300 := by
    rw [hA, length_asString, List.length_append, hlen297]; rfl
  have h1 : ∀ c, (X.take 297 ++ ['.', '.', '.']).head? = some c → pyIsSpace c = false := by
    intro c hc
    rw [List.head?_append_of_ne_nil _ hne] at hc
    rcases hl : X with _ | ⟨a, t⟩
    · rw [hl] at hne; simp at hne
    · rw [hl] at hc
      have hhd : ((a :: t).take 297).head? = some a := rfl
      rw [hhd] at hc
      cases hc
      apply hX
      rw [hl]
      rfl
  have h2 : ∀ c, (X.take 297 ++ ['.', '.', '.']).getLast? = some c → pyIsSpace c = false := by
    intro c hc
    rw [List.getLast?_append_of_ne_nil _ (show (['.', '.', '.'] : List Char) ≠ [] by simp)] at hc
    have : (['.', '.', '.'] : List Char).getLast? = some '.' := rfl
    rw [this] at hc
    cases hc
    decide
  refine ⟨⟨?_, ?_⟩, hlen'⟩
  · intro he
    rw [he] at hlen'
    simp at hlen'
  · rw [hA]
    show pyStrip (X.take 297 ++ ['.', '.', '.']).asString
        = (X.take 297 ++ ['.', '.', '.']).asString
    unfold pyStrip
    rw [toList_asString, stripL_eq_self h1 h2]

theorem normQuestionText_spec {v : Option JVal} {qt : String}
    (h : normQuestionText v = some qt) : NormStr qt ∧ qt.length ≤ 300 := by
  unfold normQuestionText at h
  rcases v with _ | v
  · exact absurd h (by simp)
  · by_cases ht : pyTruthy v
    · simp [ht] at h
      by_cases hs : pyStrip (pyStr v) = ""
      · simp [hs] at h
      · simp [hs] at h
        by_cases hlen : (pyStrip (pyStr v)).length > 300
        · rw [if_pos hlen] at h
          have hXlen : 300 < (pyStrip (pyStr v)).toList.length := hlen
          have hXhd : ∀ c, (pyStrip (pyStr v)).toList.head? = some c →
              pyIsSpace c = false := by
            intro c hc
            exact stripL_head_not_space c hc
          have hq : (List.take 297 (pyStrip (pyStr v)).toList).asString ++ "..." = qt := h
          have := trunc_spec hXhd hXlen
          rw [hq] at this
          exact ⟨this.1, by omega⟩
        · rw [if_neg hlen] at h
          subst h
          exact ⟨NormStr_of_strip hs, by omega⟩
    · simp [ht] at h

theorem pyStr_str (s : String) : pyStr (.str s) = s := rfl

theorem pyTruthy_str_true {s : String} (h : s ≠ "") : pyTruthy (.str s) = true := by
  simp [pyTruthy, h]

theorem normQuestionText_fix {qt : String} (h : NormStr qt) (hlen : qt.length ≤ 300) :
    normQuestionText (some (.str qt)) = some qt := by
  have hgt : ¬ (qt.length > 300) := by omega
  simp only [normQuestionText, pyTruthy_str_true h.1, Bool.not_true, Bool.false_eq_true,
    if_false, pyStr_str, h.2, if_neg h.1, if_neg hgt]

theorem normRelated_fix {rel : String} (h : NormStr rel) :
    normRelated (some (.str rel)) = rel := by
  simp only [normRelated, pyTruthy_str_true h.1, Bool.not_true, Bool.false_eq_true,
    if_false, pyStr_str, h.2, if_neg h.1]

theorem normRelated_spec (r : Option JVal) : NormStr (normRelated r) := by
  unfold normRelated
  rcases r with _ | v
  · exact ⟨by decide, by decide⟩
  · by_cases ht : pyTruthy v
    · simp [ht]
      by_cases hs : pyStrip (pyStr v) = ""
      · simp [hs]
        exact ⟨by decide, by decide⟩
      · simp [hs]
        exact NormStr_of_strip hs
    · simp [ht]
      exact ⟨by decide, by decide⟩

/-! ### Lemmas about deduplication, option cleanup and `list.index` -/

theorem dedupCIAux_spec (l : List String) : ∀ seen,
    (∀ x ∈ dedupCIAux seen l, pyLower x ∉ seen) ∧
    ((dedupCIAux seen l).map pyLower).Nodup ∧
    (∀ x ∈ dedupCIAux seen l, x ∈ l) := by
  induction l with
  | nil =>
    intro seen
    simp [dedupCIAux]
  | cons o rest ih =>
    intro seen
    by_cases hc : seen.contains (pyLower o)
    · simp only [dedupCIAux, hc, if_true]
      obtain ⟨h1, h2, h3⟩ := ih seen
      exact ⟨h1, h2, fun x hx => List.mem_cons_of_mem _ (h3 x hx)⟩
    · simp only [dedupCIAux, hc, Bool.false_eq_true, if_false]
      obtain ⟨h1, h2, h3⟩ := ih (pyLower o :: seen)
      refine ⟨?_, ?_, ?_⟩
      · intro x hx
        rcases List.mem_cons.mp hx with h | h
        · subst h
          intro hmem
          exact hc (List.elem_iff.mpr hmem)
        · intro hmem
          exact (h1 x h) (List.mem_cons_of_mem _ hmem)
      · rw [List.map_cons, List.nodup_cons]
        refine ⟨?_, h2⟩
        intro hmem
        obtain ⟨y, hy, hyl⟩ := List.mem_map.mp hmem
        exact (h1 y hy) (by rw [hyl]; exact List.mem_cons_self _ _)
      · intro x hx
        rcases List.mem_cons.mp hx with h | h
        · subst h
          exact List.mem_cons_self _ _
        · exact List.mem_cons_of_mem _ (h3 x h)

theorem dedupCI_nodup (l : List String) : ((dedupCI l).map pyLower).Nodup :=
  (dedupCIAux_spec l []).2.1

theorem mem_dedupCI {x : String} {l : List String} (h : x ∈ dedupCI l) : x ∈ l :=
  (dedupCIAux_spec l []).2.2 x h

theorem dedupCIAux_eq_self {l : List String} (hn : (l.map pyLower).Nodup) :
    ∀ seen, (∀ x ∈ l, pyLower x ∉ seen) → dedupCIAux seen l = l := by
  induction l with
  | nil => intro seen _; rfl
  | cons o rest ih =>
    intro seen hseen
    have hno : ¬ seen.contains (pyLower o) := by
      intro hmem
      exact hseen o (List.mem_cons_self _ _) (List.elem_iff.mp hmem)
    simp only [dedupCIAux, hno, Bool.false_eq_true, if_false]
    rw [List.map_cons, List.nodup_cons] at hn
    rw [ih hn.2]
    intro x hx
    intro hmem
    rcases List.mem_cons.mp hmem with h | h
    · exact hn.1 (h ▸ List.mem_map_of_mem pyLower hx)
    · exact hseen x (List.mem_cons_of_mem _ hx) h

theorem dedupCI_eq_self {l : List String} (hn : (l.map pyLower).Nodup) :
    dedupCI l = l :=
  dedupCIAux_eq_self hn [] (by simp)

theorem mem_cleanOptions_NormStr {o : String} {opts0 : List JVal}
    (h : o ∈ cleanOptions opts0) : NormStr o := by
  unfold cleanOptions at h
  obtain ⟨x, hx, rfl⟩ := List.mem_map.mp h
  have hcond := (List.mem_filter.mp hx).2
  simp only [Bool.and_eq_true, decide_eq_true_eq] at hcond
  exact NormStr_of_strip hcond.2

theorem cleanOptions_fix {opts : List String} (h : ∀ o ∈ opts, NormStr o) :
    cleanOptions (opts.map .str) = opts := by
  induction opts with
  | nil => rfl
  | cons a t ih =>
    have ha := h a (List.mem_cons_self _ _)
    have hrest := ih (fun o ho => h o (List.mem_cons_of_mem _ ho))
    have hcond : (!isNullJ (JVal.str a) && decide (pyStrip (pyStr (JVal.str a)) ≠ "")) = true := by
      simp [isNullJ, pyStr_str, ha.2, ha.1]
    simp only [cleanOptions, List.map_cons, List.filter_cons, hcond, if_true]
    have hfa : pyStrip (pyStr (JVal.str a)) = a := by rw [pyStr_str, ha.2]
    rw [hfa]
    simp only [cleanOptions] at hrest
    rw [hrest]

theorem pyIndexOf_get {x : String} : ∀ {l : List String} {i : Nat},
    pyIndexOf x l = some i → l[i]? = some x := by
  intro l
  induction l with
  | nil => intro i h; simp [pyIndexOf] at h
  | cons a t ih =>
    intro i h
    simp only [pyIndexOf] at h
    by_cases ha : a = x
    · rw [if_pos ha] at h
      cases h
      simp [ha]
    · rw [if_neg ha] at h
      rcases ho : pyIndexOf x t with _ | j
      · rw [ho] at h; simp at h
      · rw [ho] at h
        simp at h
        rw [← h, List.getElem?_cons_succ]
        exact ih ho

theorem validateMC_spec {q : RawQ} {qt rel : String} {q' : RawQ}
    (hqt : NormStr qt) (hqtl : qt.length ≤ 300) (hrel : NormStr rel)
    (h : validateMC q qt rel = some q') : MCOut q' := by
  unfold validateMC at h
  split at h
  · exact absurd h (by simp)
  · rename_i opts0 ho
    split at h
    · exact absurd h (by simp)
    · rename_i cv ha
      simp only [] at h
      by_cases hlt1 : (cleanOptions opts0).length < 2
      · simp [hlt1] at h
      · by_cases hlt2 : (dedupCI (cleanOptions opts0)).length < 2
        · simp [hlt1, hlt2] at h
        · by_cases hca : pyStrip (pyStr cv) = ""
          · simp [hlt1, hlt2, hca] at h
          · rcases hidx : pyIndexOf (pyLower (pyStrip (pyStr cv)))
                ((dedupCI (cleanOptions opts0)).map pyLower) with _ | i
            · simp [hlt1, hlt2, hca, hidx] at h
            · simp only [hlt1, hlt2, hca, hidx, if_neg, if_false] at h
              simp [hlt1, hlt2, hca, hidx] at h
              set opts := dedupCI (cleanOptions opts0) with hoptsdef
              have hmi : (opts.map pyLower)[i]? = some (pyLower (pyStrip (pyStr cv))) :=
                pyIndexOf_get hidx
              rw [List.getElem?_map] at hmi
              rcases hoi : opts[i]? with _ | c
              · rw [hoi] at hmi; simp at hmi
              · refine .intro qt (.intro rel (.intro opts (.intro i (.intro c ?_))))
                rw [← h]
                refine ⟨rfl, hqt, hqtl, rfl, rfl, hrel, rfl, ?_, by omega, dedupCI_nodup _,
                  hoi, ?_⟩
                · intro o hoo
                  exact mem_cleanOptions_NormStr (mem_dedupCI hoo)
                · show some (JVal.str ((opts[i]?).getD "")) = some (JVal.str c)
                  rw [hoi]
                  rfl

theorem validateTF_spec {q : RawQ} {qt rel : String} {q' : RawQ}
    (hqt : NormStr qt) (hqtl : qt.length ≤ 300) (hrel : NormStr rel)
    (h : validateTF q qt rel = some q') : TFOut q' := by
  unfold validateTF at h
  split at h
  · exact absurd h (by simp)
  · rename_i cv ha
    by_cases htr : pyStrip (pyLower (pyStr cv)) ∈ trueSynonyms
    · simp [htr] at h
      refine .intro qt (.intro rel ?_)
      rw [← h]
      exact ⟨rfl, hqt, hqtl, rfl, rfl, hrel, rfl, .inl rfl⟩
    · by_cases hfa : pyStrip (pyLower (pyStr cv)) ∈ falseSynonyms
      · simp [htr, hfa] at h
        refine .intro qt (.intro rel ?_)
        rw [← h]
        exact ⟨rfl, hqt, hqtl, rfl, rfl, hrel, rfl, .inr rfl⟩
      · simp [htr, hfa] at h

theorem validate_structure_cases {q q' : RawQ}
    (h : validate_question_structure q = some q') : MCOut q' ∨ TFOut q' := by
  unfold validate_question_structure at h
  split at h
  · exact absurd h (by simp)
  · rename_i qt hq
    obtain ⟨hqtN, hqtl⟩ := normQuestionText_spec hq
    by_cases hmc : rawTypeOf q.qtype ∈ mcSynonyms
    · simp [hmc] at h
      exact .inl (validateMC_spec hqtN hqtl (normRelated_spec _) h)
    · by_cases htf : rawTypeOf q.qtype ∈ tfSynonyms
      · simp [hmc, htf] at h
        exact .inr (validateTF_spec hqtN hqtl (normRelated_spec _) h)
      · simp [hmc, htf] at h

theorem pyIndexOf_map_self {l : List String} (hn : (l.map pyLower).Nodup) :
    ∀ {i : Nat} {c : String}, l[i]? = some c →
    pyIndexOf (pyLower c) (l.map pyLower) = some i := by
  induction l with
  | nil => intro i c h; simp at h
  | cons a t ih =>
    intro i c h
    rw [List.map_cons, List.nodup_cons] at hn
    rcases i with _ | i
    · simp at h
      subst h
      simp [pyIndexOf]
    · rw [List.getElem?_cons_succ] at h
      have hne : pyLower a ≠ pyLower c := by
        intro he
        have hmem : c ∈ t := List.getElem?_mem h
        exact hn.1 (he ▸ List.mem_map_of_mem pyLower hmem)
      simp only [List.map_cons, pyIndexOf, if_neg hne]
      rw [ih hn.2 h]
      rfl

/-! ### The validator fixes its own output -/

theorem validate_structure_fix {q' : RawQ} (h : MCOut q' ∨ TFOut q') :
    validate_question_structure q' = some q' := by
  rcases h with hmc | htf
  · obtain ⟨qt, rel, opts, i, c, hq, hqN, hql, hty, hr, hrN, hop, hoN, hol, hnod, hoi, hca⟩
      := hmc
    have hcN : NormStr c := hoN c (List.getElem?_mem hoi)
    obtain ⟨f1, f2, f3, f4, f5, f6⟩ := q'
    simp only at hq hty hr hop hca
    subst hq hty hr hop hca
    simp only [validate_question_structure, normQuestionText_fix hqN hql]
    have hty2 : rawTypeOf (some (JVal.str "multiple_choice")) = "multiple_choice" := rfl
    have hg : mcSynonyms.contains "multiple_choice" = true := rfl
    simp only [hty2, hg, if_true]
    rw [normRelated_fix hrN]
    simp only [validateMC]
    have hgo : getOptionsList (some (.arr (opts.map JVal.str))) = some (opts.map JVal.str) :=
      rfl
    have hga : getAnswer (some (.str c)) = some (.str c) := rfl
    simp only [hgo, hga, cleanOptions_fix hoN, dedupCI_eq_self hnod]
    have hlt1 : ¬ (opts.length < 2) := by omega
    have hcs : pyStrip (pyStr (JVal.str c)) = c := by rw [pyStr_str, hcN.2]
    simp only [if_neg hlt1, hcs, if_neg hcN.1, pyIndexOf_map_self hnod hoi]
    rw [hoi]
    rfl
  · obtain ⟨qt, rel, hq, hqN, hql, hty, hr, hrN, hop, hca⟩ := htf
    obtain ⟨f1, f2, f3, f4, f5, f6⟩ := q'
    simp only at hq hty hr hop
    subst hq hty hr hop
    simp only [validate_question_structure, normQuestionText_fix hqN hql]
    have hty2 : rawTypeOf (some (JVal.str "true_false")) = "true_false" := rfl
    have hgmc : mcSynonyms.contains "true_false" = false := rfl
    have hgtf : tfSynonyms.contains "true_false" = true := rfl
    simp only [hty2, hgmc, Bool.false_eq_true, if_false, hgtf, if_true]
    rw [normRelated_fix hrN]
    rcases hca with hca | hca
    · simp only at hca
      subst hca
      simp only [validateTF]
      have hga : getAnswer (some (.str "True")) = some (.str "True") := rfl
      have hans : pyStrip (pyLower (pyStr (JVal.str "True"))) = "true" := rfl
      have htr : trueSynonyms.contains "true" = true := rfl
      simp only [hga, hans, htr, if_true]
    · simp only at hca
      subst hca
      simp only [validateTF]
      have hga : getAnswer (some (.str "False")) = some (.str "False") := rfl
      have hans : pyStrip (pyLower (pyStr (JVal.str "False"))) = "false" := rfl
      have htr : trueSynonyms.contains "false" = false := rfl
      have hfa : falseSynonyms.contains "false" = true := rfl
      simp only [hga, hans, htr, Bool.false_eq_true, if_false, hfa, if_true]

theorem validate_structure_idem {q q' : RawQ}
    (h : validate_question_structure q = some q') :
    validate_question_structure q' = some q' :=
  validate_structure_fix (validate_structure_cases h)

theorem filterMap_self_idem {f : RawQ → Option RawQ}
    (hf : ∀ a b, f a = some b → f b = some b) (l : List RawQ) :
    (l.filterMap f).filterMap f = l.filterMap f := by
  induction l with
  | nil => rfl
  | cons a t ih =>
    rcases ha : f a with _ | b
    · simp [List.filterMap_cons, ha, ih]
    · simp [List.filterMap_cons, ha, hf a b ha, ih]

theorem getAnswer_some {o : Option JVal} {v : JVal} (h : getAnswer o = some v) :
    o = some v := by
  rcases o with _ | w
  · simp [getAnswer] at h
  · cases w
    case null => simp [getAnswer] at h
    all_goals simp only [getAnswer] at h
    all_goals exact h

/-- Input-side fact for the `true_false` branch: a record validated as
`true_false` had a `correct_answer` whose lowered, stripped string form lies
in the accepted synonym sets. -/
theorem validate_tf_input {q q' : RawQ}
    (h : validate_question_structure q = some q')
    (ht : q'.qtype = some (.str "true_false")) :
    ∃ cv, q.correct_answer = some cv ∧
      (pyStrip (pyLower (pyStr cv)) ∈ trueSynonyms ∨
       pyStrip (pyLower (pyStr cv)) ∈ falseSynonyms) := by
  unfold validate_question_structure at h
  split at h
  · exact absurd h (by simp)
  · rename_i qt hq
    obtain ⟨hqtN, hqtl⟩ := normQuestionText_spec hq
    by_cases hmc : rawTypeOf q.qtype ∈ mcSynonyms
    · simp [hmc] at h
      obtain ⟨_, _, _, _, _, _, _, _, hty, _⟩ :=
        validateMC_spec hqtN hqtl (normRelated_spec _) h
      rw [ht] at hty
      simp at hty
    · by_cases htf : rawTypeOf q.qtype ∈ tfSynonyms
      · simp [hmc, htf] at h
        unfold validateTF at h
        split at h
        · exact absurd h (by simp)
        · rename_i cv hga
          refine ⟨cv, getAnswer_some hga, ?_⟩
          by_cases htr : pyStrip (pyLower (pyStr cv)) ∈ trueSynonyms
          · exact .inl htr
          · by_cases hfa : pyStrip (pyLower (pyStr cv)) ∈ falseSynonyms
            · exact .inr hfa
            · simp [htr, hfa] at h
      · simp [hmc, htf] at h

/-! ### Claim theorems: structural validation (C1, C2, C3) -/

/-- **C1.** Every raw question record surviving structural validation with
type `multiple_choice` has, after normalization, a `correct_answer` that is
exactly (string-equal to) one of its `options`, and `options` holds at least
two non-blank, case-insensitively unique entries. -/
theorem C1_mc_answer_in_options {q q' : RawQ}
    (h : validate_question_structure q = some q')
    (ht : q'.qtype = some (.str "multiple_choice")) :
    ∃ (opts : List String) (c : String),
      q'.options = some (.arr (opts.map JVal.str)) ∧
      q'.correct_answer = some (.str c) ∧
      c ∈ opts ∧
      2 ≤ opts.length ∧
      (∀ o ∈ opts, pyStrip o ≠ "") ∧
      (opts.map pyLower).Nodup := by
  rcases validate_structure_cases h with hmc | htf
  · obtain ⟨qt, rel, opts, i, c, hq, hqN, hql, hty, hr, hrN, hop, hoN, hol, hnod, hoi, hca⟩
      := hmc
    refine ⟨opts, c, hop, hca, List.getElem?_mem hoi, hol, ?_, hnod⟩
    intro o ho
    rw [(hoN o ho).2]
    exact (hoN o ho).1
  · obtain ⟨qt, rel, hq, hqN, hql, hty, _⟩ := htf
    rw [ht] at hty
    simp at hty

/-- A concrete multiple-choice record (blank/duplicate options, answer in the
wrong case) and its normalized form, used to witness C1. -/
def qC1ex : RawQ :=
  ⟨some (.str "What is 2 + 2?"), some (.str "Choice"), some (.str " Math "),
   some (.arr [.str "4", .str " 5", .str "4 ", .str "", .null, .str "six"]),
   some (.str " 4"), []⟩

def qC1res : RawQ :=
  ⟨some (.str "What is 2 + 2?"), some (.str "multiple_choice"), some (.str "Math"),
   some (.arr [.str "4", .str "5", .str "six"]), some (.str "4"), []⟩

theorem C1_mc_answer_in_options_witness :
    validate_question_structure qC1ex = some qC1res ∧
    ∃ (opts : List String) (c : String),
      qC1res.options = some (.arr (opts.map JVal.str)) ∧
      qC1res.correct_answer = some (.str c) ∧
      c ∈ opts ∧
      2 ≤ opts.length ∧
      (∀ o ∈ opts, pyStrip o ≠ "") ∧
      (opts.map pyLower).Nodup :=
  ⟨rfl, @C1_mc_answer_in_options qC1ex qC1res rfl rfl⟩

/-- **C2.** Every record surviving validation with type `true_false`
(including synonym spellings) ends with `options = ["True", "False"]` and
`correct_answer ∈ {"True", "False"}`; moreover its original answer's
lowered/stripped form lay in the accepted synonym sets (so any answer outside
them was rejected). -/
theorem C2_tf_normalized {q q' : RawQ}
    (h : validate_question_structure q = some q')
    (ht : q'.qtype = some (.str "true_false")) :
    q'.options = some (.arr [JVal.str "True", JVal.str "False"]) ∧
    (q'.correct_answer = some (.str "True") ∨
     q'.correct_answer = some (.str "False")) ∧
    ∃ cv, q.correct_answer = some cv ∧
      (pyStrip (pyLower (pyStr cv)) ∈ trueSynonyms ∨
       pyStrip (pyLower (pyStr cv)) ∈ falseSynonyms) := by
  rcases validate_structure_cases h with hmc | htf
  · obtain ⟨qt, rel, opts, i, c, hq, hqN, hql, hty, _⟩ := hmc
    rw [ht] at hty
    simp at hty
  · obtain ⟨qt, rel, hq, hqN, hql, hty, hr, hrN, hop, hca⟩ := htf
    exact ⟨hop, hca, validate_tf_input h ht⟩

/-- A concrete true/false record (synonym type `yes_no`, Russian answer) and
its normalized form, used to witness C2. -/
def qC2ex : RawQ :=
  ⟨some (.str "Is the sky blue?"), some (.str "Yes_No"), none,
   some (.arr [.str "yes", .str "no"]), some (.str " ДА "), []⟩

def qC2res : RawQ :=
  ⟨some (.str "Is the sky blue?"), some (.str "true_false"), some (.str "General"),
   some (.arr [.str "True", .str "False"]), some (.str "True"), []⟩

theorem C2_tf_normalized_witness :
    validate_question_structure qC2ex = some qC2res ∧
    (qC2res.options = some (.arr [JVal.str "True", JVal.str "False"]) ∧
     (qC2res.correct_answer = some (.str "True") ∨
      qC2res.correct_answer = some (.str "False")) ∧
     ∃ cv, qC2ex.correct_answer = some cv ∧
       (pyStrip (pyLower (pyStr cv)) ∈ trueSynonyms ∨
        pyStrip (pyLower (pyStr cv)) ∈ falseSynonyms)) :=
  ⟨rfl, @C2_tf_normalized qC2ex qC2res rfl rfl⟩

/-- **C3.** The validator-and-filter step is idempotent: applied to its own
output it returns that output unchanged. -/
theorem C3_validate_filter_idempotent (l : List RawQ) :
    validate_and_filter_questions (validate_and_filter_questions l)
      = validate_and_filter_questions l :=
  filterMap_self_idem (fun _ _ h => validate_structure_idem h) l

/-! ### Claim C7: deduplication and the history argument -/

/-- A batch item whose text coincides with a history entry. -/
def qC7dup : RawQ :=
  ⟨some (.str "What is X?"), some (.str "multiple_choice"), none,
   some (.arr [.str "a", .str "b"]), some (.str "a"), []⟩

def qC7other : RawQ :=
  ⟨some (.str "What is Y?"), some (.str "multiple_choice"), none,
   some (.arr [.str "a", .str "b"]), some (.str "b"), []⟩

/-- **C7 (counterexample).** With history `["What is X?"]` and a batch whose
only question has exactly that text, `_validate_unique` returns the batch
unchanged: the claimed exclusion of history duplicates does not happen (the
`history` parameter is never read). -/
theorem C7_counterexample :
    questionTextOf qC7dup = "What is X?" ∧
    validate_unique [qC7dup] ["What is X?"] = [qC7dup] :=
  ⟨rfl, rfl⟩

theorem validate_unique_go_eq_self {qs : List RawQ}
    (hnb : ∀ q ∈ qs, pyStrip (questionTextOf q) ≠ "")
    (hnd : (qs.map (fun q => pyLower (pyStrip (questionTextOf q)))).Nodup) :
    ∀ seen, (∀ q ∈ qs, pyLower (pyStrip (questionTextOf q)) ∉ seen) →
      validate_unique.goUnique seen qs = qs := by
  induction qs with
  | nil => intro seen _; rfl
  | cons q rest ih =>
    intro seen hseen
    rw [List.map_cons, List.nodup_cons] at hnd
    have hq := hnb q (List.mem_cons_self _ _)
    have hnotin : ¬ seen.contains (pyLower (pyStrip (questionTextOf q))) := by
      intro hmem
      exact hseen q (List.mem_cons_self _ _) (List.elem_iff.mp hmem)
    simp only [validate_unique.goUnique, if_neg hq, hnotin, Bool.false_eq_true, if_false]
    rw [ih (fun p hp => hnb p (List.mem_cons_of_mem _ hp)) hnd.2]
    · intro p hp hmem
      rcases List.mem_cons.mp hmem with hh | hh
      · exact hnd.1 (hh ▸ List.mem_map_of_mem _ hp)
      · exact hseen p (List.mem_cons_of_mem _ hp) hh

/-- **C7 (amended).** `_validate_unique` never consults its `history`
argument; it only removes blank texts and case-insensitive duplicates of
*earlier questions in the same batch*. In particular any batch with pairwise
case-insensitively distinct non-blank texts is returned unchanged, whatever
the history holds. -/
theorem C7_amended_batch_only_dedup :
    (∀ (qs : List RawQ) (hist1 hist2 : List String),
      validate_unique qs hist1 = validate_unique qs hist2) ∧
    (∀ (qs : List RawQ) (hist : List String),
      (∀ q ∈ qs, pyStrip (questionTextOf q) ≠ "") →
      (qs.map (fun q => pyLower (pyStrip (questionTextOf q)))).Nodup →
      validate_unique qs hist = qs) := by
  refine ⟨fun qs h1 h2 => rfl, fun qs hist hnb hnd => ?_⟩
  exact validate_unique_go_eq_self hnb hnd [] (by simp)

theorem C7_amended_batch_only_dedup_witness :
    validate_unique [qC7dup, qC7other] ["What is X?"] = [qC7dup, qC7other] :=
  C7_amended_batch_only_dedup.2 [qC7dup, qC7other] ["What is X?"]
    (by decide) (by decide)

/-! ## `agents/orchestrator.py`

The orchestrator sequences LLM-backed collaborators. Those collaborators
(content classification, concept extraction, fact-check, quiz generation, the
vector similarity search and the SHA-256 hash) are modelled as oracle
functions in `OrchEnv`; the orchestrator's own control flow, session state and
cache handling are embedded from the source. The on-disk JSON cache of
`services/cache_manager.py` is a key/value association list. -/

/-- `NoteAnalysis` (orchestrator.py): the enum `ContentType` is carried as its
value string. -/
structure NoteAnalysis where
  contentType : String
  summary : JVal
  complexity : String
  recommendedStrategy : String

/-- The value strings of `ContentType`. -/
def contentTypeValues : List String :=
  ["theory", "code", "math", "list", "short", "garbage", "unknown"]

/-- Steps observable in a pipeline run (for sequencing claims). -/
inductive PStep where
  | classify        -- `_analyze_content` LLM call
  | parseCacheHit   -- ParserAgent returned concepts from its own cache
  | extractLLM      -- ParserAgent `_extract_concepts_from_llm`
  | parseCacheSave  -- ParserAgent saved fresh concepts under the note hash
  | factcheck       -- `fact_checker.verify_concepts`
  | saveVerified    -- orchestrator saved the V2 `verified_*` payload
  | loadVerified    -- orchestrator loaded the `verified_*` payload (hot start)
  | generate        -- `quiz_generator.generate_questions`
  | updateHistory   -- `_update_history`
deriving DecidableEq, Repr

/-- Session and store state of `OrchestratorAgent`. -/
structure OrchState where
  cache : List (String × JVal)
  vectorStore : List String
  currentQuiz : List JVal
  verifiedConcepts : List JVal
  correctionsReport : List JVal
  userScore : Nat
  totalAnswered : Nat

/-- The LLM-backed / external collaborators, as oracles. `hash` stands for
`utils.hashing.compute_hash` (a SHA-256 hex digest — only key equality
matters to the control flow). `extractConcepts` returning `none` models the
extraction call raising. -/
structure OrchEnv where
  classify : String → Except GJErr JVal
  extractConcepts : String → Option (List JVal)
  verifyConcepts : List JVal → List JVal × List JVal
  generateQuestions : List JVal → List String → String → String → String → List JVal
  findSimilar : List String → String → Bool
  getRecent : List String → List String
  hash : String → String
  factcheckEnabled : Bool
  parserCacheEnabled : Bool

/-- `CacheManager.exists(filename)` (filename extension handling elided:
`.json` is appended injectively to every key). -/
def cacheExists (cache : List (String × JVal)) (key : String) : Bool :=
  (cache.find? (fun kv => kv.1 = key)).isSome

/-- `CacheManager.load(filename)`. -/
def cacheLoad (cache : List (String × JVal)) (key : String) : Option JVal :=
  (cache.find? (fun kv => kv.1 = key)).map (fun kv => kv.2)

/-- `CacheManager.save(filename, data)`: overwrite-or-create. -/
def cacheSave (cache : List (String × JVal)) (key : String) (v : JVal) :
    List (String × JVal) :=
  (cache.filter (fun kv => kv.1 ≠ key)) ++ [(key, v)]

def jArrElems (v : JVal) : List JVal :=
  match v with
  | .arr xs => xs
  | _ => []

/-- A `.get` that expects a string value (non-string metadata never arises
from the save path; in Python a non-string would simply flow onward). -/
def strOrD (o : Option JVal) (d : String) : String :=
  match o with
  | some (.str s) => s
  | _ => d

/-- `OrchestratorAgent._analyze_content(text)`. The oracle is keyed by the
note text (the prompt is built from it); `.error` models `generate_json`
raising, and any shape making `.get(...).lower()` raise falls to the same
`except` default `NoteAnalysis(THEORY, "", "medium", "standard")`. -/
def analyze_content (classify : String → Except GJErr JVal) (text : String) :
    NoteAnalysis :=
  match classify text with
  | .error _ => ⟨"theory", .str "", "medium", "standard"⟩
  | .ok response =>
    match response with
    | .obj _ =>
      match jgetD response "type" (.str "unknown") with
      | .str ts =>
        let cTypeStr := pyLower ts
        let ctype := if cTypeStr ∈ contentTypeValues then cTypeStr else "theory"
        let strategy :=
          if ctype = "code" then "code_practice"
          else if ctype = "short" ∨ ctype = "list" then "direct_quiz"
          else "standard"
        match jgetD response "complexity" (.str "medium") with
        | .str cs =>
          let c0 := pyLower cs
          let complexity :=
            if hasSubstr "hard".toList c0.toList ∨ hasSubstr "сложн".toList c0.toList
            then "hard"
            else if hasSubstr "easy".toList c0.toList ∨ hasSubstr "легк".toList c0.toList
            then "easy"
            else "medium"
          ⟨ctype, jgetD response "summary" (.str ""), complexity, strategy⟩
        | _ => ⟨"theory", .str "", "medium", "standard"⟩
      | _ => ⟨"theory", .str "", "medium", "standard"⟩
    | _ => ⟨"theory", .str "", "medium", "standard"⟩

/-- `ParserAgent.parse_note(text)`: its own hash-keyed cache, then the LLM
extraction, then a cache save. `none` in the first component = the extraction
call raised (the orchestrator catches it). -/
def parse_note (env : OrchEnv) (cache : List (String × JVal)) (text : String) :
    Option (List JVal) × List (String × JVal) × List PStep :=
  let noteHash := env.hash text
  match (if env.parserCacheEnabled then cacheLoad cache noteHash else none) with
  | some cached => (some (jArrElems cached), cache, [.parseCacheHit])
  | none =>
    match env.extractConcepts text with
    | none => (none, cache, [.extractLLM])
    | some concepts =>
      if env.parserCacheEnabled then
        (some concepts, cacheSave cache noteHash (.arr concepts),
         [.extractLLM, .parseCacheSave])
      else (some concepts, cache, [.extractLLM])

/-- `OrchestratorAgent._update_history(new_questions)`: a question is added
to the vector store only when its stripped text is non-blank and the
similarity search finds nothing above threshold. -/
def update_history (env : OrchEnv) (store : List String) (newQuestions : List JVal) :
    List String :=
  let uniques := newQuestions.filter (fun q =>
    let text := pyStrip (pyStr (jgetD q "question" (.str "")))
    text ≠ "" ∧ env.findSimilar store text = false)
  store ++ uniques.map (fun q => pyStr (jgetD q "question" (.str "")))

/-- Result dict of `process_note_pipeline` (`status` plus the payload). -/
inductive PipeResult where
  | success (quiz : List JVal) (conceptsCount : Nat) (message : String)
  | error (message : String)

def PipeResult.status : PipeResult → String
  | .success _ _ _ => "success"
  | .error _ => "error"

/-- The quiz-generation tail shared by the hot and cold branches
(orchestrator.py lines 267–323). Lines 309–316 would assemble the success
dict, but line 307 first evaluates the undefined name `cached_verified`
(stale from the rename to `cached_data`, see the comment at line 146); the
resulting `NameError` is caught by the blanket `except Exception` at
line 325 and surfaces as a system-error dict. -/
def generatePhase (env : OrchEnv) (st : OrchState) (noteText : String)
    (difficulty : Option String) (ignoreHistory : Bool) (analysis : NoteAnalysis)
    (strategy : String) (steps : List PStep) :
    PipeResult × OrchState × List PStep :=
  let historyToUse := if ignoreHistory then [] else env.getRecent st.vectorStore
  let quizDifficulty := difficulty.getD analysis.complexity
  let quiz := env.generateQuestions st.verifiedConcepts historyToUse noteText
    strategy quizDifficulty
  let st := { st with currentQuiz := quiz }
  let steps := steps ++ [PStep.generate]
  if quiz.isEmpty then
    (.error "Не удалось сгенерировать вопросы.", st, steps)
  else
    let st := { st with vectorStore := update_history env st.vectorStore quiz }
    (.error "System Error: name 'cached_verified' is not defined",
     st, steps ++ [PStep.updateHistory])

/-- `OrchestratorAgent.process_note_pipeline(note_text, …)`. The third
component traces the steps taken. Line 158 of the source is truncated
mid-identifier (`… and "metadata" in cached_`); it is modelled as the evident
`isinstance(cached_data, dict) and "metadata" in cached_data`. -/
def process_note_pipeline (env : OrchEnv) (st0 : OrchState) (noteText : String)
    (difficulty : Option String) (forceReparse ignoreHistory : Bool) :
    PipeResult × OrchState × List PStep :=
  -- `_reset_session()`: scores, quiz and concepts reset; cache and history persist
  let st : OrchState := { st0 with
    currentQuiz := [], verifiedConcepts := [],
    correctionsReport := [], userScore := 0, totalAnswered := 0 }
  let noteHash := env.hash noteText
  let verifiedKey := "verified_" ++ noteHash
  if ¬forceReparse ∧ cacheExists st.cache verifiedKey then
    -- HOT branch
    let cachedData := (cacheLoad st.cache verifiedKey).getD .null
    let hotRes : NoteAnalysis × String × List JVal :=
      match cachedData with
      | .obj fields =>
        if (jget (.obj fields) "metadata").isSome then
          -- V2 payload
          let metadata := jgetD (.obj fields) "metadata" (.obj [])
          let strategy := strOrD (jget metadata "strategy") "standard"
          let complexity := strOrD (jget metadata "complexity") "medium"
          let ts := strOrD (jget metadata "content_type") "theory"
          let ctype := if ts ∈ contentTypeValues then ts else "theory"
          (⟨ctype, jgetD metadata "summary" (.str "Loaded from cache"), complexity,
            strategy⟩, strategy, jArrElems (jgetD (.obj fields) "concepts" (.arr [])))
        else
          legacy (.obj fields)
      | v => legacy v
    let st := { st with verifiedConcepts := hotRes.2.2 }
    generatePhase env st noteText difficulty ignoreHistory hotRes.1 hotRes.2.1
      [PStep.loadVerified]
  else
    -- COLD branch
    let analysis := analyze_content env.classify noteText
    if analysis.contentType = "unknown" ∧ noteText.length < 50 then
      (.error "Текст слишком короткий.", st, [PStep.classify])
    else if analysis.contentType = "garbage" then
      (.error "Текст неинформативный.", st, [PStep.classify])
    else
      let strategy0 := analysis.recommendedStrategy
      let ext : List JVal × List (String × JVal) × List PStep :=
        if strategy0 = "direct_quiz" then ([], st.cache, [])
        else if strategy0 = "code_practice" then
          -- `self.parser.parse_code_note` does not exist on `ParserAgent`;
          -- the AttributeError is swallowed at lines 234–236, leaving `[]`
          ([], st.cache, [])
        else
          match parse_note env st.cache noteText with
          | (some cs, c, ps) => (cs, c, ps)
          | (none, c, ps) => ([], c, ps)   -- `except Exception: extracted = []`
      let extracted := ext.1
      let strategy :=
        if extracted.isEmpty ∧ strategy0 ≠ "direct_quiz" then "direct_quiz" else strategy0
      let fc : List JVal × List JVal × List PStep :=
        if !extracted.isEmpty ∧ env.factcheckEnabled then
          let vr := env.verifyConcepts extracted
          (vr.1, vr.2, [PStep.factcheck])
        else (extracted, [], [])
      let st := { st with
        cache := ext.2.1, verifiedConcepts := fc.1, correctionsReport := fc.2.1 }
      let sv : OrchState × List PStep :=
        if !fc.1.isEmpty then
          let payload : JVal := .obj [
            ("metadata", .obj [
              ("version", .str "2.0"),
              ("content_type", .str analysis.contentType),
              ("complexity", .str analysis.complexity),
              ("strategy", .str strategy),
              ("summary", analysis.summary),
              ("timestamp_hash", .str noteHash)]),
            ("concepts", .arr fc.1)]
          ({ st with cache := cacheSave st.cache verifiedKey payload },
           [PStep.saveVerified])
        else (st, [])
      generatePhase env sv.1 noteText difficulty ignoreHistory analysis strategy
        ([PStep.classify] ++ ext.2.2 ++ fc.2.2 ++ sv.2)
where
  -- the V1 legacy-cache branch (orchestrator.py lines 183-198)
  legacy (cachedData : JVal) : NoteAnalysis × String × List JVal :=
    let verified := jArrElems cachedData
    let hasCode := verified.any (fun c => pyTruthy (jgetD c "code_snippet" .null))
    let strategy := if hasCode then "code_practice" else "standard"
    (⟨if hasCode then "code" else "theory", .str "Legacy cache load", "medium",
      strategy⟩, strategy, verified)

/-! ### `submit_answer` -/

/-- `OrchestratorAgent._find_question_by_id(q_id)`. -/
def find_question_by_id (quiz : List JVal) (qid : String) : Option JVal :=
  quiz.find? (fun q =>
    match jget q "question_id" with
    | some (.str s) => s = qid
    | _ => false)

/-- Result dict of `submit_answer`. -/
inductive SubmitResult where
  | notFound (message : String)  -- `{"status": "error", "message": …}`
  | graded (status : String) (isCorrect : Bool) (correctAnswer : Option JVal)
      (score : Nat) (total : Nat) (explanation : Option String)
      (memoryPalace : Option String)

def SubmitResult.status : SubmitResult → String
  | .notFound _ => "error"
  | .graded s _ _ _ _ _ _ => s

/-- `OrchestratorAgent.submit_answer(question_id, user_answer)`. The
explanation generator (`ExplainAgent.explain_error`) is the oracle `explain`;
`none` models it raising (as the real call in fact does — the orchestrator
passes keyword arguments the method does not accept — which the local
`except` turns into fallback texts). The final `Bool` reports whether the
explanation generator was invoked. -/
def submit_answer (explain : String → String → String → Option (String × String))
    (st : OrchState) (qid userAnswer : String) :
    SubmitResult × OrchState × Bool :=
  match find_question_by_id st.currentQuiz qid with
  | none =>
    (.notFound ("Вопрос с ID " ++ qid ++ " не найден"), st, false)
  | some q =>
    let correctAnswer := jget q "correct_answer"
    let isCorrect :=
      pyStrip (pyLower userAnswer)
        = pyStrip (pyLower (pyStr (correctAnswer.getD .null)))
    let st' : OrchState := { st with
      totalAnswered := st.totalAnswered + 1,
      userScore := if isCorrect then st.userScore + 1 else st.userScore }
    if isCorrect then
      (.graded "correct" true correctAnswer st'.userScore st'.currentQuiz.length
        none none, st', false)
    else
      let res := explain (pyStr (jgetD q "question" .null)) userAnswer
        (pyStr (correctAnswer.getD .null))
      let pair := match res with
        | some em => em
        | none => ("Не удалось сгенерировать объяснение.", "")
      (.graded "incorrect" false correctAnswer st'.userScore st'.currentQuiz.length
        (some pair.1) (some pair.2), st', true)

/-! ### Claim theorems: pipeline and answer submission (C8, C9, C10) -/

/-- An environment for the cache-hit scenario: classification says `theory`,
extraction yields one concept, fact-check passes it through, generation
returns one valid question. `hash` stands in for the SHA-256 digest (only key
equality matters). -/
def c8Env : OrchEnv :=
  ⟨fun _ => .ok (.obj [("type", .str "theory"), ("summary", .str "demo"),
      ("complexity", .str "medium")]),
   fun _ => some [.obj [("term", .str "X"), ("definition", .str "Y")]],
   fun cs => (cs, []),
   fun _ _ _ _ _ => [.obj [("question_id", .str "id-1"), ("question", .str "What is X?"),
      ("type", .str "multiple_choice"), ("options", .arr [.str "Y", .str "Z"]),
      ("correct_answer", .str "Y")]],
   fun _ _ => false,
   fun _ => [],
   fun s => s,
   true, true⟩

def c8State0 : OrchState := ⟨[], [], [], [], [], 0, 0⟩

def c8Note : String := "Python is a programming language used for scripting."

/-- **C8 (code bug).** On a cache miss the pipeline does run the cold-start
sequence classify → extract → (cache-save) → fact-check → verified-save →
generate, and an immediately repeated run with the same note and
`force_reparse=False` loads the cache and skips extraction and fact-check —
but *neither* run returns a success result: after a non-empty quiz is
generated, line 307 of orchestrator.py evaluates the undefined name
`cached_verified` (stale from the rename to `cached_data` announced at
line 146), and the `NameError` is converted by the blanket `except` into a
`status: "error"` dict on every run. -/
theorem C8_pipeline_never_succeeds :
    (process_note_pipeline c8Env c8State0 c8Note none false false).2.2
      = [.classify, .extractLLM, .parseCacheSave, .factcheck, .saveVerified,
         .generate, .updateHistory] ∧
    (process_note_pipeline c8Env c8State0 c8Note none false false).1
      = .error "System Error: name 'cached_verified' is not defined" ∧
    (process_note_pipeline c8Env
        (process_note_pipeline c8Env c8State0 c8Note none false false).2.1
        c8Note none false false).2.2
      = [.loadVerified, .generate, .updateHistory] ∧
    (process_note_pipeline c8Env
        (process_note_pipeline c8Env c8State0 c8Note none false false).2.1
        c8Note none false false).1
      = .error "System Error: name 'cached_verified' is not defined" :=
  ⟨rfl, rfl, rfl, rfl⟩

/-- **C9.** If the submitted answer matches the stored string
`correct_answer` up to letter case and surrounding whitespace, the score
counter increments by exactly 1, the result status is `"correct"`, and the
explanation generator is not invoked. -/
theorem C9_correct_answer_increments_score
    (explain : String → String → String → Option (String × String))
    (st : OrchState) (qid ans : String) (q : JVal) (ca : String)
    (hfind : find_question_by_id st.currentQuiz qid = some q)
    (hca : jget q "correct_answer" = some (.str ca))
    (hmatch : pyStrip (pyLower ans) = pyStrip (pyLower ca)) :
    (submit_answer explain st qid ans).2.1.userScore = st.userScore + 1 ∧
    (submit_answer explain st qid ans).2.2 = false ∧
    (submit_answer explain st qid ans).1.status = "correct" := by
  unfold submit_answer
  rw [hfind]
  have hc : pyStr ((jget q "correct_answer").getD .null) = ca := by
    rw [hca]
    rfl
  have hic : (pyStrip (pyLower ans)
      = pyStrip (pyLower (pyStr ((jget q "correct_answer").getD .null)))) := by
    rw [hc]
    exact hmatch
  simp only [hic, if_pos, if_true, decide_True]
  exact ⟨trivial, trivial, rfl⟩

def c9Quiz : List JVal :=
  [.obj [("question_id", .str "id-1"), ("question", .str "What is X?"),
    ("options", .arr [.str "Foo", .str "Bar"]), ("correct_answer", .str "Foo")]]

def c9State : OrchState := ⟨[], [], c9Quiz, [], [], 4, 7⟩

theorem C9_correct_answer_increments_score_witness :
    (submit_answer (fun _ _ _ => none) c9State "id-1" "  foo ").2.1.userScore = 4 + 1 ∧
    (submit_answer (fun _ _ _ => none) c9State "id-1" "  foo ").2.2 = false ∧
    (submit_answer (fun _ _ _ => none) c9State "id-1" "  foo ").1.status = "correct" :=
  C9_correct_answer_increments_score (fun _ _ _ => none) c9State "id-1" "  foo "
    ((c9Quiz.get ⟨0, by decide⟩)) "Foo" rfl rfl rfl

/-- **C10.** For a `question_id` matching no question of the current quiz,
`submit_answer` returns the error dict, leaves the whole session state
(including both counters) unchanged, and does not invoke the explanation
generator. -/
theorem C10_unknown_id_is_error
    (explain : String → String → String → Option (String × String))
    (st : OrchState) (qid ans : String)
    (hfind : find_question_by_id st.currentQuiz qid = none) :
    submit_answer explain st qid ans
      = (.notFound ("Вопрос с ID " ++ qid ++ " не найден"), st, false) ∧
    (submit_answer explain st qid ans).1.status = "error" := by
  unfold submit_answer
  rw [hfind]
  exact ⟨rfl, rfl⟩

theorem C10_unknown_id_is_error_witness :
    submit_answer (fun _ _ _ => none) c9State "missing-id" "x"
      = (.notFound ("Вопрос с ID " ++ "missing-id" ++ " не найден"), c9State, false) ∧
    (submit_answer (fun _ _ _ => none) c9State "missing-id" "x").1.status = "error" :=
  C10_unknown_id_is_error (fun _ _ _ => none) c9State "missing-id" "x" rfl

/-! ### Claim theorems: the JSON repair ladder (C4, C5, C6) -/

/-- **C4 (counterexample).** The strategies are *not* attempted in the
order "(1) direct parse first": on `{"a": "/*x*/"}` — a valid JSON document —
the direct parse succeeds with `{"a": "/*x*/"}`, yet `_parse_json_from_text`
returns `{"a": ""}`, because comment stripping runs unconditionally *before*
the first parse attempt and destroys the string contents. -/
theorem C4_counterexample :
    pyJsonLoads true "\x7b\"a\": \"/*x*/\"\x7d"
      = some (.obj [("a", .str "/*x*/")]) ∧
    parse_json_from_text "\x7b\"a\": \"/*x*/\"\x7d"
      = .ok (.obj [("a", .str "")]) :=
  ⟨rfl, rfl⟩

/-- **C4 (amended).** `_parse_json_from_text` first cleans the text
unconditionally (strip; the vestigial six-backtick fence check, whose match
raises `IndexError`; `^\s*//` line comments; `/* */` block comments; BOM and
NBSP normalization) and then tries, in order, on the cleaned text: (1) strict
parse; (2) lenient (non-strict) parse; (3) regex extraction of the outermost
`{…}` / `[…]` span with lenient parse; (4) replacement of
`None→null, True→true, False→false, '→"` with lenient parse, re-raising the
parse error when that also fails. The first success is returned. -/
theorem C4_amended_ladder_order (t : String) (hne : t ≠ "")
    (hfence : hasSubstr "``````".toList (pyStrip t).toList = false) :
    (∀ v, pyJsonLoads true (gigaCleanup t) = some v →
      parse_json_from_text t = .ok v) ∧
    (pyJsonLoads true (gigaCleanup t) = none →
      ∀ v, pyJsonLoads false (gigaCleanup t) = some v →
      parse_json_from_text t = .ok v) ∧
    (pyJsonLoads true (gigaCleanup t) = none →
      pyJsonLoads false (gigaCleanup t) = none →
      ∀ p v, extractSpanGiga ((gigaCleanup t).length + 1) (gigaCleanup t).toList = some p →
      pyJsonLoads false p = some v →
      parse_json_from_text t = .ok v) ∧
    (pyJsonLoads true (gigaCleanup t) = none →
      pyJsonLoads false (gigaCleanup t) = none →
      (extractSpanGiga ((gigaCleanup t).length + 1) (gigaCleanup t).toList = none ∨
       ∃ p, extractSpanGiga ((gigaCleanup t).length + 1) (gigaCleanup t).toList = some p ∧
         pyJsonLoads false p = none) →
      parse_json_from_text t = gigaFixAndParse (gigaCleanup t)) := by
  refine ⟨?_, ?_, ?_, ?_⟩
  · intro v hv
    simp only [parse_json_from_text, if_neg hne, hfence, Bool.false_eq_true, if_false, hv]
  · intro h1 v hv
    simp only [parse_json_from_text, if_neg hne, hfence, Bool.false_eq_true, if_false,
      h1, hv]
  · intro h1 h2 p v hp hv
    simp only [parse_json_from_text, if_neg hne, hfence, Bool.false_eq_true, if_false,
      h1, h2, hp, hv]
  · intro h1 h2 hsp
    rcases hsp with hsp | ⟨p, hp, hv⟩
    · simp only [parse_json_from_text, if_neg hne, hfence, Bool.false_eq_true, if_false,
        h1, h2, hsp]
    · simp only [parse_json_from_text, if_neg hne, hfence, Bool.false_eq_true, if_false,
        h1, h2, hp, hv]

theorem C4_amended_ladder_order_witness :
    pyJsonLoads true (gigaCleanup "x [1, 2] y") = none ∧
    pyJsonLoads false (gigaCleanup "x [1, 2] y") = none ∧
    extractSpanGiga ((gigaCleanup "x [1, 2] y").length + 1)
      (gigaCleanup "x [1, 2] y").toList = some "[1, 2]" ∧
    pyJsonLoads false "[1, 2]" = some (.arr [.num 1, .num 2]) ∧
    parse_json_from_text "x [1, 2] y" = .ok (.arr [.num 1, .num 2]) :=
  ⟨rfl, rfl, rfl, rfl,
    (C4_amended_ladder_order "x [1, 2] y" (by decide) rfl).2.2.1 rfl rfl
      "[1, 2]" (.arr [.num 1, .num 2]) rfl rfl⟩

/-- Invariant of the `generate_json` retry loop: with `k` attempts remaining
out of `R`, the prompts actually sent are successive `_enhance_json_prompt`
iterates, at most `k` requests are made, and if each sent prompt's response
fails to parse, the loop ends in the typed parse failure after exactly `k`
requests. -/
theorem generate_json_loop_spec (llm : Nat → String → String) (R : Nat) :
    ∀ (k : Nat), k ≤ R → ∀ (p : String),
    (generate_json_loop llm R k p).2.length ≤ k ∧
    (∀ i, i < (generate_json_loop llm R k p).2.length →
      (generate_json_loop llm R k p).2[i]? = some (enhance_json_prompt^[i] p)) ∧
    ((∀ i q, (generate_json_loop llm R k p).2[i]? = some q →
        parse_json_from_text (llm (R - k + 1 + i) q) = .error .jsonDecodeError) →
      (generate_json_loop llm R k p).1 = .error .parseFailed ∧
      (generate_json_loop llm R k p).2.length = k) := by
  intro k
  induction k with
  | zero =>
    intro _ p
    exact ⟨by simp [generate_json_loop], by simp [generate_json_loop],
      fun _ => ⟨rfl, rfl⟩⟩
  | succ k ih =>
    intro hkR p
    have heq0 : R - (k + 1) + 1 + 0 = R - k := by omega
    rcases hparse : parse_json_from_text (llm (R - k) p) with e | v
    · cases e with
      | jsonDecodeError =>
        by_cases hk : k = 0
        · subst hk
          simp only [generate_json_loop, hparse]
          refine ⟨by simp, ?_, fun _ => ⟨rfl, rfl⟩⟩
          intro i hi
          simp at hi
          subst hi
          simp [Function.iterate_zero]
        · have hne : (generate_json_loop llm R (k + 1) p)
              = ((generate_json_loop llm R k (enhance_json_prompt p)).1,
                 p :: (generate_json_loop llm R k (enhance_json_prompt p)).2) := by
            simp only [generate_json_loop, hparse, if_neg hk]
          obtain ⟨ih1, ih2, ih3⟩ := ih (by omega) (enhance_json_prompt p)
          rw [hne]
          refine ⟨by simpa using Nat.succ_le_succ ih1, ?_, ?_⟩
          · intro i hi
            rcases i with _ | i
            · simp
            · simp only [List.getElem?_cons_succ]
              simp at hi
              rw [ih2 i (by omega)]
              rw [Function.iterate_succ_apply]
          · intro hfail
            have hfail' : ∀ i q,
                (generate_json_loop llm R k (enhance_json_prompt p)).2[i]? = some q →
                parse_json_from_text (llm (R - k + 1 + i) q) = .error .jsonDecodeError := by
              intro i q hq
              have hstep := hfail (i + 1) q (by simpa using hq)
              have he : R - (k + 1) + 1 + (i + 1) = R - k + 1 + i := by omega
              rwa [he] at hstep
            obtain ⟨hr, hl⟩ := ih3 hfail'
            exact ⟨hr, by simpa using hl⟩
      | indexError =>
        simp only [generate_json_loop, hparse]
        refine ⟨by simp, ?_, ?_⟩
        · intro i hi
          simp at hi
          subst hi
          simp [Function.iterate_zero]
        · intro hfail
          have hstep := hfail 0 p (by simp)
          rw [heq0, hparse] at hstep
          exact absurd hstep (by simp)
    · simp only [generate_json_loop, hparse]
      refine ⟨by simp, ?_, ?_⟩
      · intro i hi
        simp at hi
        subst hi
        simp [Function.iterate_zero]
      · intro hfail
        have hstep := hfail 0 p (by simp)
        rw [heq0, hparse] at hstep
        exact absurd hstep (by simp)

/-- **C5.** `generate_json` makes at most `retry_attempts` LLM request/parse
attempts (source default `defaultRetryAttempts = 3`); the i-th prompt sent is
the original prompt with the "return strict JSON" enhancement appended i
times (one more after each parse failure); and if every attempt's response
fails to parse, it raises the typed parse `ValueError` after exactly
`retry_attempts` requests rather than returning a value. -/
theorem C5_generate_json_bounded_retries (llm : Nat → String → String)
    (prompt : String) (n : Nat) (hp : ¬ (prompt = "" ∨ pyStrip prompt = "")) :
    (generate_json llm prompt n).2.length ≤ n ∧
    (∀ i, i < (generate_json llm prompt n).2.length →
      (generate_json llm prompt n).2[i]? = some (enhance_json_prompt^[i] prompt)) ∧
    ((∀ i q, (generate_json llm prompt n).2[i]? = some q →
        parse_json_from_text (llm (i + 1) q) = .error .jsonDecodeError) →
      (generate_json llm prompt n).1 = .error .parseFailed ∧
      (generate_json llm prompt n).2.length = n) ∧
    defaultRetryAttempts = 3 := by
  have hgen : generate_json llm prompt n = generate_json_loop llm n n prompt := by
    simp only [generate_json, if_neg hp]
  obtain ⟨h1, h2, h3⟩ := generate_json_loop_spec llm n n (le_refl n) prompt
  rw [hgen]
  refine ⟨h1, h2, ?_, rfl⟩
  intro hfail
  apply h3
  intro i q hq
  have he : n - n + 1 + i = i + 1 := by omega
  rw [he]
  exact hfail i q hq

def c5llm : Nat → String → String := fun _ _ => "nope"

theorem C5_generate_json_bounded_retries_witness :
    (generate_json c5llm "p" 3).2.length ≤ 3 ∧
    (generate_json c5llm "p" 3).1 = .error .parseFailed ∧
    (generate_json c5llm "p" 3).2.length = 3 :=
  have h := C5_generate_json_bounded_retries c5llm "p" 3 (by decide)
  ⟨h.1, (h.2.2.1 (fun _ _ _ => rfl)).1, (h.2.2.1 (fun _ _ _ => rfl)).2⟩

/-- **C6 (counterexample).** The GigaChat client's own extraction/repair
function — the one the `generate_json` path actually calls — *fails* on
`"Here is your JSON: {\"a\": 1,}"`: its ladder has no trailing-comma repair,
so every attempt raises `JSONDecodeError`. -/
theorem C6_counterexample :
    parse_json_from_text "Here is your JSON: \x7b\"a\": 1,\x7d"
      = .error .jsonDecodeError := rfl

/-- **C6 (amended).** The input is parsed successfully to `{"a": 1}` by the
other repair ladder of the repository, `utils.text_cleaner.parse_llm_json`,
whose strategy 4 (`fix_common_json_errors`) removes the trailing comma from
the extracted `{…}` span. -/
theorem C6_amended_text_cleaner_repairs :
    parse_llm_json "Here is your JSON: \x7b\"a\": 1,\x7d" false
      = .ok (some (.obj [("a", .num 1)])) := rfl

end MindForge
